import Mathlib

/-!
Shallow embedding of the he-pilltag web component (src/pilltag.js): the
edit-session state machine, the auto-complete prediction engine, and the
programmatic configuration surface. Strings are modelled as Lean strings
(lists of code points); the JavaScript string primitives used by the source
(trim, toLowerCase on ASCII, startsWith, slice, default array sort) are
embedded below with ASCII-faithful semantics.
-/

/-- ASCII whitespace as recognized by the JavaScript trim operation and the
whitespace character class of the source regexes, restricted to ASCII. -/
def jsIsSpace (c : Char) : Bool :=
  c == ' ' || c == '\t' || c == '\n' || c == '\r' || c == '\x0b' || c == '\x0c'

/-- Word characters of the JavaScript regex word class: ASCII letters,
digits and underscore. -/
def isWordChar (c : Char) : Bool :=
  (('a' ≤ c) && (c ≤ 'z')) || (('A' ≤ c) && (c ≤ 'Z')) ||
    (('0' ≤ c) && (c ≤ '9')) || c == '_'

/-- ASCII lowercasing of a single character, as JavaScript toLowerCase acts
on ASCII input. -/
def jsLowerChar : Char → Char
  | 'A' => 'a' | 'B' => 'b' | 'C' => 'c' | 'D' => 'd' | 'E' => 'e' | 'F' => 'f'
  | 'G' => 'g' | 'H' => 'h' | 'I' => 'i' | 'J' => 'j' | 'K' => 'k' | 'L' => 'l'
  | 'M' => 'm' | 'N' => 'n' | 'O' => 'o' | 'P' => 'p' | 'Q' => 'q' | 'R' => 'r'
  | 'S' => 's' | 'T' => 't' | 'U' => 'u' | 'V' => 'v' | 'W' => 'w' | 'X' => 'x'
  | 'Y' => 'y' | 'Z' => 'z'
  | c => c

/-- ASCII uppercasing of a single character, as JavaScript toUpperCase acts
on ASCII input. -/
def jsUpperChar : Char → Char
  | 'a' => 'A' | 'b' => 'B' | 'c' => 'C' | 'd' => 'D' | 'e' => 'E' | 'f' => 'F'
  | 'g' => 'G' | 'h' => 'H' | 'i' => 'I' | 'j' => 'J' | 'k' => 'K' | 'l' => 'L'
  | 'm' => 'M' | 'n' => 'N' | 'o' => 'O' | 'p' => 'P' | 'q' => 'Q' | 'r' => 'R'
  | 's' => 'S' | 't' => 'T' | 'u' => 'U' | 'v' => 'V' | 'w' => 'W' | 'x' => 'X'
  | 'y' => 'Y' | 'z' => 'Z'
  | c => c

/-- Remove trailing whitespace from a character list. -/
def trimEnd : List Char → List Char
  | [] => []
  | a :: t =>
    if trimEnd t = [] ∧ jsIsSpace a then [] else a :: trimEnd t

/-- Remove leading and trailing whitespace from a character list. -/
def jsTrimList (l : List Char) : List Char :=
  trimEnd (l.dropWhile jsIsSpace)

/-- The JavaScript trim operation. -/
def jsTrim (s : String) : String :=
  ⟨jsTrimList s.data⟩

/-- The JavaScript toLowerCase operation on ASCII strings. -/
def jsToLower (s : String) : String :=
  ⟨s.data.map jsLowerChar⟩

/-- The JavaScript startsWith operation: does the subject begin with the
given leading string. -/
def jsStartsWith (subject lead : String) : Bool :=
  lead.data.isPrefixOf subject.data

/-- The JavaScript slice operation from a start index to the end. -/
def jsSlice (s : String) (n : Nat) : String :=
  ⟨s.data.drop n⟩

/-- The JavaScript string length (code points; code units on ASCII). -/
def jsLen (s : String) : Nat :=
  s.data.length

/-- String concatenation. -/
def strCat (a b : String) : String :=
  ⟨a.data ++ b.data⟩

/-- The title-casing regex replacement of the source: each match of a word
character followed by non-space characters has its first character
uppercased and the rest lowercased. The Boolean flag records whether the
scan is currently inside such a match. -/
def titleCaseAux : Bool → List Char → List Char
  | _, [] => []
  | false, c :: rest =>
    if isWordChar c then jsUpperChar c :: titleCaseAux true rest
    else c :: titleCaseAux false rest
  | true, c :: rest =>
    if jsIsSpace c then c :: titleCaseAux false rest
    else jsLowerChar c :: titleCaseAux true rest

/-- Title-case normalization used on confirm and when registering
suggestions (the replace call in the source). -/
def titleCase (s : String) : String :=
  ⟨titleCaseAux false s.data⟩

/-- Code-point lexicographic less-or-equal on character lists: the
comparison the default JavaScript array sort applies to strings. -/
def jsStrLe : List Char → List Char → Bool
  | [], _ => true
  | _ :: _, [] => false
  | a :: as, b :: bs =>
    if a.toNat < b.toNat then true
    else if b.toNat < a.toNat then false
    else jsStrLe as bs

/-- Code-point lexicographic less-or-equal on strings. -/
def strLeB (a b : String) : Bool :=
  jsStrLe a.data b.data

instance strLeBDecRel : DecidableRel (fun a b : String => strLeB a b = true) :=
  fun _ _ => inferInstanceAs (Decidable _)

/-- The default JavaScript array sort on an array of strings: ascending
code-point lexicographic order. -/
def sortJS (l : List String) : List String :=
  List.insertionSort (fun a b => strLeB a b = true) l

/-- Deduplication keeping first occurrences, as produced by converting a
JavaScript array to a Set and back to an array. -/
def jsDedup : List String → List String
  | [] => []
  | a :: l => a :: (jsDedup l).filter (fun x => x ≠ a)

/-- Outbound notifications of the component that carry tag values on the
confirm transition. -/
inductive Ev
  | tagUpdated (newTag oldTag : String)
  | tagAdded (newTag : String)
deriving DecidableEq

/-- Keys handled by the keydown listener during an edit session. -/
inductive Key
  | enter
  | escape
  | tab
deriving DecidableEq

/-- A JavaScript value arriving at a property setter: a string, an array of
strings, or some other value (number, boolean, null). -/
inductive ConfigVal
  | cstr (s : String)
  | carr (l : List String)
  | cnum (n : Int)
  | cbool (b : Bool)
  | cnull
deriving DecidableEq

/-- The component state: the text node content of the tag-text element
excluding the prediction span (draft), the prediction span content when one
is rendered, the originalText snapshot, the suggestion array, the
configuration flags, whether the element is contenteditable (an edit
session exists), and whether the placeholder hint label is shown. -/
structure PillTag where
  draft : String
  prediction : Option String
  originalText : String
  autoComplete : List String
  editable : Bool
  removable : Bool
  editing : Bool
  placeholderVisible : Bool
deriving DecidableEq

/-- The textContent read of the tag-text element: the draft text followed
by the rendered ghost text when a prediction span is present. -/
def textContentOf (s : PillTag) : String :=
  strCat s.draft (s.prediction.getD "")

/-- The addAutoComplete method: push the title-cased value, then
deduplicate via a Set (keeping first occurrences). -/
def addAutoComplete (s : PillTag) (value : String) : PillTag :=
  { s with autoComplete := jsDedup (s.autoComplete ++ [titleCase value]) }

/-- The openEdit method: no-op unless editable; otherwise mark editable,
snapshot originalText from the trimmed textContent, clear the text when it
is the placeholder sentinel, and toggle the placeholder hint label. -/
def openEdit (s : PillTag) : PillTag :=
  if s.editable = false then s
  else
    let s1 : PillTag := { s with editing := true, originalText := jsTrim (textContentOf s) }
    let s2 : PillTag :=
      if jsTrim (textContentOf s1) = "New Tag" then { s1 with draft := "", prediction := none }
      else s1
    if jsTrim (textContentOf s2) = "" then { s2 with placeholderVisible := true }
    else { s2 with placeholderVisible := false }

/-- The public edit method, which invokes openEdit. -/
def edit (s : PillTag) : PillTag :=
  openEdit s

/-- The value displayed and compared after the confirm transition: the
title-cased trimmed textContent when non-empty, else the placeholder
sentinel. -/
def confirmValue (s : PillTag) : String :=
  if jsTrim (textContentOf s) ≠ "" then jsTrim (titleCase (jsTrim (textContentOf s)))
  else "New Tag"

/-- The confirmEdit method: normalize or fall back to the placeholder,
register into the suggestion set, leave editing, emit tag-updated or
tag-added per the originalText comparison, and update originalText. -/
def confirmEdit (s : PillTag) : PillTag × List Ev :=
  let s1 : PillTag :=
    if jsTrim (textContentOf s) ≠ "" then
      let sA : PillTag := { s with draft := titleCase (jsTrim (textContentOf s)), prediction := none }
      addAutoComplete sA (jsTrim (textContentOf sA))
    else { s with draft := "New Tag", prediction := none }
  let s2 : PillTag := { s1 with editing := false }
  let newT : String := jsTrim (textContentOf s2)
  let evUpd : List Ev :=
    if newT ≠ s2.originalText ∧ s2.originalText ≠ "New Tag" then
      [Ev.tagUpdated newT s2.originalText]
    else []
  let evAdd : List Ev :=
    if s2.originalText = "New Tag" then [Ev.tagAdded newT] else []
  ({ s2 with originalText := newT, placeholderVisible := false }, evUpd ++ evAdd)

/-- The abortEdit method: register the trimmed textContent when non-empty,
leave editing, restore the displayed value to originalText, and hide the
placeholder hint. -/
def abortEdit (s : PillTag) : PillTag :=
  let s1 : PillTag :=
    if jsTrim (textContentOf s) ≠ "" then
      let sA : PillTag := { s with draft := jsTrim (textContentOf s), prediction := none }
      addAutoComplete sA (jsTrim (textContentOf sA))
    else { s with draft := "New Tag", prediction := none }
  { s1 with editing := false, draft := s1.originalText, prediction := none,
            placeholderVisible := false }

/-- The filter of the predictEdit method: suggestions whose lowercased form
starts with the trimmed lowercased input text. -/
def predictFiltered (s : PillTag) : List String :=
  s.autoComplete.filter (fun item => jsStartsWith (jsToLower item) (jsTrim (jsToLower s.draft)))

/-- The predictEdit method: with a non-empty suggestion array and non-empty
input text (the text node content excluding any previous prediction span),
render the remaining suffix of the sort-first filtered match; otherwise
remove any rendered prediction. -/
def predictEdit (s : PillTag) : PillTag :=
  if 0 < s.autoComplete.length ∧ 0 < jsLen s.draft then
    if 0 < (predictFiltered s).length then
      { s with prediction := some (jsSlice ((sortJS (predictFiltered s)).headD "") (jsLen s.draft)) }
    else { s with prediction := none }
  else { s with prediction := none }

/-- The confirmPrediction method: merge the literal draft with the rendered
ghost text and remove the prediction span. -/
def confirmPrediction (s : PillTag) : PillTag :=
  match s.prediction with
  | some g => { s with draft := strCat s.draft g, prediction := none }
  | none => s

/-- The keydown listener: Enter confirms, Escape aborts, Tab accepts the
prediction when one is rendered and otherwise confirms like Enter. The
blur that follows a confirm is suppressed by the justConfirmed guard. -/
def keydown (s : PillTag) (k : Key) : PillTag × List Ev :=
  match k with
  | Key.enter => confirmEdit s
  | Key.escape => (abortEdit s, [])
  | Key.tab =>
    match s.prediction with
    | some _ => (confirmPrediction s, [])
    | none => confirmEdit s

/-- The input listener: the typed text replaces the draft, the prediction
is recomputed, and the placeholder hint is shown exactly when the resulting
textContent is empty. -/
def inputEvent (s : PillTag) (typed : String) : PillTag :=
  let s1 : PillTag := predictEdit { s with draft := typed }
  { s1 with placeholderVisible := jsLen (textContentOf s1) == 0 }

/-- The textContent getter, which returns the originalText snapshot. -/
def textContentGet (s : PillTag) : String :=
  s.originalText

/-- Whether a setter argument is a string. -/
def isStrVal : ConfigVal → Bool
  | ConfigVal.cstr _ => true
  | _ => false

/-- Whether a setter argument is an array. -/
def isArrVal : ConfigVal → Bool
  | ConfigVal.carr _ => true
  | _ => false

/-- The autoComplete setter: wholesale replacement for an array argument;
any other argument is reported on the console and ignored. -/
def setAutoComplete (s : PillTag) (v : ConfigVal) : PillTag × Option String :=
  match v with
  | ConfigVal.carr l => ({ s with autoComplete := l }, none)
  | _ => (s, some "auto-complete must be an array")

/-- The textContent setter: for a string argument the trimmed value becomes
the displayed text and the originalText snapshot and is registered as a
suggestion; any other argument is reported on the console and ignored. -/
def setTextContent (s : PillTag) (v : ConfigVal) : PillTag × Option String :=
  match v with
  | ConfigVal.cstr t =>
    let s1 : PillTag := { s with draft := jsTrim t, prediction := none, originalText := jsTrim t }
    (addAutoComplete s1 (jsTrim (textContentOf s1)), none)
  | _ => (s, some "textContent must be a string")

/-- A component in the idle placeholder state with editing enabled. -/
def basePill : PillTag :=
  { draft := "New Tag", prediction := none, originalText := "New Tag",
    autoComplete := [], editable := true, removable := false,
    editing := false, placeholderVisible := false }

/-- Placeholder-state component for the placeholder round-trip scenario. -/
def pillC1 : PillTag :=
  basePill

/-- Idle component holding the value Apple, used for confirm scenarios. -/
def pillC2 : PillTag :=
  { basePill with draft := "Apple", originalText := "Apple" }

/-- Editing component whose draft is a single space while a suggestion
exists. -/
def pillC3 : PillTag :=
  { basePill with
      draft := " ", originalText := "", autoComplete := ["Apple"],
      editing := true, prediction := none }

/-- Editing component with the documented three-suggestion example and the
draft a single letter. -/
def pillC4 : PillTag :=
  { basePill with
      draft := "a", originalText := "",
      autoComplete := ["apple", "Apricot", "avocado"], editing := true }

/-- Editing component whose draft equals a stored suggestion while another
stored suggestion sorts earlier. -/
def pillC5 : PillTag :=
  { basePill with
      draft := "Apple", originalText := "",
      autoComplete := ["AppLE2", "Apple"], editing := true }

/-- Editing component whose draft equals its only stored suggestion. -/
def pillC5b : PillTag :=
  { basePill with
      draft := "Apple", originalText := "",
      autoComplete := ["Apple"], editing := true }

/-- Idle editable component holding the value Apple with no suggestions. -/
def pillC6 : PillTag :=
  { basePill with draft := "Apple", originalText := "Apple" }

/-- Editing component with the draft Man while the ghost text go is
rendered from the suggestion Mango. -/
def pillC7 : PillTag :=
  { basePill with
      draft := "Man", prediction := some "go",
      originalText := "Apple", autoComplete := ["Mango"], editing := true }

/-- Editing component with the draft Mango and no rendered prediction. -/
def pillC7b : PillTag :=
  { basePill with
      draft := "Mango", prediction := none,
      originalText := "Apple", autoComplete := [], editing := true }

/-- Component with an active edit session whose draft differs from the
originalText snapshot. -/
def pillC8 : PillTag :=
  { basePill with draft := "Banana", originalText := "Apple", editing := true }

/-- Non-editable idle component. -/
def pillC8b : PillTag :=
  { basePill with draft := "Apple", originalText := "Apple", editable := false }

/-- Idle component used for the invalid-configuration scenarios. -/
def pillC9 : PillTag :=
  { basePill with draft := "Apple", originalText := "Apple", autoComplete := ["Apple"] }

/-- Idle editable component holding the value Apple, for the getter
scenario. -/
def pillC10 : PillTag :=
  { basePill with draft := "Apple", originalText := "Apple" }

/-! Helper lemmas about the embedded string primitives. -/

theorem str_data_inj {a b : String} (h : a.data = b.data) : a = b :=
  congrArg String.mk h

theorem strCat_empty (a : String) : strCat a "" = a :=
  str_data_inj (by simp [strCat])

theorem textContentOf_none {s : PillTag} (h : s.prediction = none) :
    textContentOf s = s.draft := by
  unfold textContentOf
  rw [h]
  exact strCat_empty s.draft

theorem jsIsSpace_jsLowerChar (c : Char) : jsIsSpace (jsLowerChar c) = jsIsSpace c := by
  unfold jsLowerChar
  split <;> rfl

theorem dropWhile_len_le (p : Char → Bool) : ∀ l : List Char, (l.dropWhile p).length ≤ l.length
  | [] => Nat.le_refl _
  | a :: t => by
    cases h : p a
    · simp [List.dropWhile_cons, h]
    · simp only [List.dropWhile_cons, h, if_true]
      exact Nat.le_succ_of_le (dropWhile_len_le p t)

theorem dropWhile_head_false {p : Char → Bool} {a : Char} {t : List Char}
    (h : List.dropWhile p (a :: t) = a :: t) : p a = false := by
  cases hp : p a
  · rfl
  · rw [List.dropWhile_cons, if_pos hp] at h
    have hle := dropWhile_len_le p t
    rw [h, List.length_cons] at hle
    omega

theorem dropWhile_idem (p : Char → Bool) :
    ∀ l : List Char, (l.dropWhile p).dropWhile p = l.dropWhile p
  | [] => rfl
  | a :: t => by
    cases h : p a
    · simp [List.dropWhile_cons, h]
    · simp only [List.dropWhile_cons, h, if_true]
      exact dropWhile_idem p t

theorem trimEnd_idem : ∀ l : List Char, trimEnd (trimEnd l) = trimEnd l
  | [] => rfl
  | a :: t => by
    simp only [trimEnd]
    by_cases h : trimEnd t = [] ∧ jsIsSpace a
    · rw [if_pos h]; rfl
    · rw [if_neg h]
      simp only [trimEnd]
      rw [trimEnd_idem t, if_neg h]

theorem dropWhile_trimEnd (l : List Char) (h : l.dropWhile jsIsSpace = l) :
    (trimEnd l).dropWhile jsIsSpace = trimEnd l := by
  cases l with
  | nil => rfl
  | cons a t =>
    have ha : jsIsSpace a = false := dropWhile_head_false h
    simp only [trimEnd]
    by_cases hc : trimEnd t = [] ∧ jsIsSpace a
    · rw [if_pos hc]; rfl
    · rw [if_neg hc, List.dropWhile_cons, ha]
      simp

theorem jsTrim_idem (s : String) : jsTrim (jsTrim s) = jsTrim s := by
  apply str_data_inj
  show jsTrimList (jsTrimList s.data) = jsTrimList s.data
  unfold jsTrimList
  rw [dropWhile_trimEnd _ (dropWhile_idem jsIsSpace s.data), trimEnd_idem]

theorem dropWhile_map_lower (l : List Char) :
    (l.map jsLowerChar).dropWhile jsIsSpace = (l.dropWhile jsIsSpace).map jsLowerChar := by
  induction l with
  | nil => rfl
  | cons a t ih =>
    simp only [List.map_cons, List.dropWhile_cons, jsIsSpace_jsLowerChar]
    cases h : jsIsSpace a
    · simp [h]
    · simp [h, ih]

theorem trimEnd_map_lower (l : List Char) :
    trimEnd (l.map jsLowerChar) = (trimEnd l).map jsLowerChar := by
  induction l with
  | nil => rfl
  | cons a t ih =>
    simp only [List.map_cons, trimEnd, ih, jsIsSpace_jsLowerChar, List.map_eq_nil_iff]
    by_cases h : trimEnd t = [] ∧ jsIsSpace a
    · simp [h]
    · simp [h]

theorem jsTrim_jsToLower (s : String) : jsTrim (jsToLower s) = jsToLower (jsTrim s) := by
  apply str_data_inj
  show jsTrimList (s.data.map jsLowerChar) = (jsTrimList s.data).map jsLowerChar
  unfold jsTrimList
  rw [dropWhile_map_lower, trimEnd_map_lower]

theorem isPrefixOf_self : ∀ l : List Char, l.isPrefixOf l = true
  | [] => rfl
  | a :: t => by simp [List.isPrefixOf, isPrefixOf_self t]

theorem jsLen_pos {s : String} (h : s ≠ "") : 0 < jsLen s := by
  unfold jsLen
  cases hd : s.data with
  | nil => exact absurd (str_data_inj (show s.data = "".data from hd)) h
  | cons a t => simp

theorem jsStrLe_refl : ∀ l : List Char, jsStrLe l l = true
  | [] => rfl
  | a :: t => by simp [jsStrLe, jsStrLe_refl t]

theorem jsStrLe_total : ∀ a b : List Char, jsStrLe a b = true ∨ jsStrLe b a = true
  | [], _ => Or.inl rfl
  | _ :: _, [] => Or.inr rfl
  | a :: as, b :: bs => by
    simp only [jsStrLe]
    rcases Nat.lt_trichotomy a.toNat b.toNat with h | h | h
    · left; simp [h]
    · rcases jsStrLe_total as bs with ih | ih
      · left
        rw [if_neg (by omega), if_neg (by omega)]
        exact ih
      · right
        rw [if_neg (by omega), if_neg (by omega)]
        exact ih
    · right; simp [h]

theorem jsStrLe_trans : ∀ a b c : List Char,
    jsStrLe a b = true → jsStrLe b c = true → jsStrLe a c = true
  | [], _, _, _, _ => rfl
  | _ :: _, [], _, h, _ => by simp [jsStrLe] at h
  | _ :: _, _ :: _, [], _, h => by simp [jsStrLe] at h
  | a :: as, b :: bs, c :: cs, h1, h2 => by
    simp only [jsStrLe] at h1 h2 ⊢
    rcases Nat.lt_trichotomy a.toNat b.toNat with hab | hab | hab
    · rcases Nat.lt_trichotomy b.toNat c.toNat with hbc | hbc | hbc
      · simp [show a.toNat < c.toNat from by omega]
      · simp [show a.toNat < c.toNat from by omega]
      · rw [if_neg (by omega), if_pos (by omega)] at h2
        simp at h2
    · rcases Nat.lt_trichotomy b.toNat c.toNat with hbc | hbc | hbc
      · simp [show a.toNat < c.toNat from by omega]
      · rw [if_neg (by omega), if_neg (by omega)] at h1
        rw [if_neg (by omega), if_neg (by omega)] at h2
        rw [if_neg (by omega), if_neg (by omega)]
        exact jsStrLe_trans as bs cs h1 h2
      · rw [if_neg (by omega), if_pos (by omega)] at h2
        simp at h2
    · rw [if_neg (by omega), if_pos (by omega)] at h1
      simp at h1

theorem sortJS_head_min (l : List String) (h : l ≠ []) :
    (sortJS l).headD "" ∈ l ∧ ∀ x ∈ l, strLeB ((sortJS l).headD "") x = true := by
  haveI instT : IsTotal String (fun a b => strLeB a b = true) :=
    ⟨fun a b => jsStrLe_total a.data b.data⟩
  haveI instTr : IsTrans String (fun a b => strLeB a b = true) :=
    ⟨fun a b c => jsStrLe_trans a.data b.data c.data⟩
  have hperm : (sortJS l).Perm l := List.perm_insertionSort _ l
  have hsorted : List.Sorted (fun a b => strLeB a b = true) (sortJS l) :=
    List.sorted_insertionSort _ l
  cases hs : sortJS l with
  | nil =>
    rw [hs] at hperm
    exact absurd hperm.symm.eq_nil h
  | cons m rest =>
    rw [hs] at hperm hsorted
    constructor
    · exact hperm.mem_iff.mp (List.mem_cons_self m rest)
    · intro x hx
      have hx' : x ∈ m :: rest := hperm.mem_iff.mpr hx
      rcases List.mem_cons.mp hx' with hxm | hxr
      · rw [hxm]
        exact jsStrLe_refl m.data
      · exact List.rel_of_sorted_cons hsorted x hxr

theorem mem_jsDedup (x : String) : ∀ l : List String, x ∈ jsDedup l ↔ x ∈ l := by
  intro l
  induction l with
  | nil => simp [jsDedup]
  | cons a t ih =>
    rw [jsDedup]
    simp only [List.mem_cons, List.mem_filter, ih]
    constructor
    · rintro (h | ⟨h, _⟩)
      · exact Or.inl h
      · exact Or.inr h
    · rintro (h | h)
      · exact Or.inl h
      · by_cases hx : x = a
        · exact Or.inl hx
        · exact Or.inr ⟨h, by simpa using hx⟩

theorem addAutoComplete_mem (s : PillTag) (v : String) :
    titleCase v ∈ (addAutoComplete s v).autoComplete := by
  unfold addAutoComplete
  simp [mem_jsDedup]

/-! Helper lemmas about the component operations. -/

theorem predictEdit_originalText (s : PillTag) :
    (predictEdit s).originalText = s.originalText := by
  unfold predictEdit
  split
  · split <;> rfl
  · rfl

theorem predictEdit_draft (s : PillTag) : (predictEdit s).draft = s.draft := by
  unfold predictEdit
  split
  · split <;> rfl
  · rfl

theorem predictEdit_editing (s : PillTag) : (predictEdit s).editing = s.editing := by
  unfold predictEdit
  split
  · split <;> rfl
  · rfl

theorem inputEvent_originalText (s : PillTag) (typed : String) :
    (inputEvent s typed).originalText = s.originalText := by
  unfold inputEvent
  exact predictEdit_originalText _

theorem inputEvent_draft (s : PillTag) (typed : String) :
    (inputEvent s typed).draft = typed := by
  unfold inputEvent
  exact predictEdit_draft _

theorem inputEvent_editing (s : PillTag) (typed : String) :
    (inputEvent s typed).editing = s.editing := by
  unfold inputEvent
  exact predictEdit_editing _

theorem openEdit_originalText (s : PillTag) (h1 : s.editable = true) :
    (openEdit s).originalText = jsTrim (textContentOf s) := by
  simp only [openEdit, h1]
  rw [if_neg (by simp)]
  split <;> split <;> rfl

theorem openEdit_editing (s : PillTag) (h1 : s.editable = true) :
    (openEdit s).editing = true := by
  simp only [openEdit, h1]
  rw [if_neg (by simp)]
  split <;> split <;> rfl

theorem openEdit_clears (s : PillTag) (h1 : s.editable = true)
    (h2 : jsTrim (textContentOf s) = "New Tag") :
    (openEdit s).draft = "" ∧ (openEdit s).prediction = none := by
  simp only [openEdit]
  rw [if_neg (by simp [h1])]
  have hb : textContentOf { s with editing := true, originalText := jsTrim (textContentOf s) } =
      textContentOf s := rfl
  rw [hb, h2, if_pos rfl]
  constructor
  · split <;> rfl
  · split <;> rfl

theorem abortEdit_fields (s : PillTag) :
    (abortEdit s).draft = s.originalText ∧ (abortEdit s).editing = false ∧
      (abortEdit s).originalText = s.originalText := by
  simp only [abortEdit]
  split <;> simp [addAutoComplete]

theorem confirmEdit_snd (s : PillTag) :
    (confirmEdit s).2 =
      (if confirmValue s ≠ s.originalText ∧ s.originalText ≠ "New Tag" then
        [Ev.tagUpdated (confirmValue s) s.originalText]
      else []) ++
      (if s.originalText = "New Tag" then [Ev.tagAdded (confirmValue s)] else []) := by
  unfold confirmEdit confirmValue
  by_cases h : jsTrim (textContentOf s) ≠ ""
  · rw [if_pos h, if_pos h]
    simp only [addAutoComplete, textContentOf, Option.getD_none, strCat_empty]
  · rw [if_neg h, if_neg h]
    have htr : jsTrim "New Tag" = "New Tag" := rfl
    simp only [textContentOf, Option.getD_none, strCat_empty, htr]

theorem confirmEdit_draft (s : PillTag) :
    (confirmEdit s).1.draft = (if jsTrim (textContentOf s) ≠ "" then
      titleCase (jsTrim (textContentOf s)) else "New Tag") := by
  unfold confirmEdit
  split <;> rfl

/-! Claim theorems. -/

/-- Claim C1, counterexample: starting from the placeholder state, entering
edit mode and confirming with the draft left empty does yield the
placeholder as the displayed value, but the code emits a tag-added
notification with newTag equal to the placeholder, contradicting the claim
that neither tag-added nor tag-updated is emitted. -/
theorem C1_counterexample :
    pillC1.draft = "New Tag" ∧ pillC1.editable = true ∧
    (confirmEdit (openEdit pillC1)).1.draft = "New Tag" ∧
    Ev.tagAdded "New Tag" ∈ (confirmEdit (openEdit pillC1)).2 := by
  refine ⟨rfl, rfl, rfl, ?_⟩
  decide

/-- Claim C1, amended: starting from the placeholder state, entering edit
mode, leaving the draft empty, and confirming yields the placeholder value
as the displayed value again, emits no tag-updated, but emits exactly one
tag-added notification carrying the placeholder as newTag. -/
theorem C1_placeholder_roundtrip (s : PillTag) (h1 : s.editable = true)
    (h2 : s.draft = "New Tag") (h3 : s.prediction = none) :
    (confirmEdit (openEdit s)).1.draft = "New Tag" ∧
    (confirmEdit (openEdit s)).2 = [Ev.tagAdded "New Tag"] := by
  have htc : textContentOf s = "New Tag" := by rw [textContentOf_none h3, h2]
  have htr : jsTrim (textContentOf s) = "New Tag" := by rw [htc]; rfl
  have hOrig : (openEdit s).originalText = "New Tag" := by
    rw [openEdit_originalText s h1, htr]
  obtain ⟨hd, hp⟩ := openEdit_clears s h1 htr
  have htcX : textContentOf (openEdit s) = "" := by rw [textContentOf_none hp, hd]
  have hcv : confirmValue (openEdit s) = "New Tag" := by
    unfold confirmValue
    rw [htcX, if_neg (by decide)]
  constructor
  · rw [confirmEdit_draft, htcX, if_neg (by decide)]
  · rw [confirmEdit_snd, hcv, hOrig, if_neg (by decide), if_pos rfl]
    rfl

/-- Claim C1, witness: the amended statement evaluated on the concrete
placeholder-state component. -/
theorem C1_placeholder_roundtrip_witness :
    (confirmEdit (openEdit pillC1)).1.draft = "New Tag" ∧
    (confirmEdit (openEdit pillC1)).2 = [Ev.tagAdded "New Tag"] :=
  C1_placeholder_roundtrip pillC1 rfl rfl rfl

/-- Claim C2: on the confirm transition a tag-updated notification with
payload newTag and oldTag equal to originalText is emitted exactly when the
normalized confirmed value differs from originalText and originalText was
not the placeholder sentinel; a tag-added notification with payload newTag
is emitted exactly when originalText was the placeholder sentinel,
regardless of whether the confirmed value differs from the placeholder. -/
theorem C2_confirm_notifications (s : PillTag) (n o : String) :
    (Ev.tagUpdated n o ∈ (confirmEdit s).2 ↔
      (n = confirmValue s ∧ o = s.originalText ∧
        confirmValue s ≠ s.originalText ∧ s.originalText ≠ "New Tag")) ∧
    (Ev.tagAdded n ∈ (confirmEdit s).2 ↔
      (n = confirmValue s ∧ s.originalText = "New Tag")) := by
  rw [confirmEdit_snd]
  by_cases h1 : s.originalText = "New Tag" <;>
    by_cases h2 : confirmValue s = s.originalText <;>
      constructor <;> simp [h1, h2]

/-- Claim C3, counterexample: with a non-empty suggestion set and a draft
consisting of a single space, the trimmed draft is empty, yet the engine
renders a prediction instead of producing none. -/
theorem C3_counterexample :
    jsTrim pillC3.draft = "" ∧ pillC3.autoComplete ≠ [] ∧
    (predictEdit pillC3).prediction = some "pple" := by
  refine ⟨rfl, by decide, rfl⟩

/-- Claim C3, amended: the candidate set equals exactly the elements of the
suggestion set whose case-insensitive form starts with the case-insensitive
trimmed draft; no prediction is produced whenever the suggestion set is
empty or the draft is empty before trimming (a whitespace-only draft does
produce a prediction, every suggestion being a candidate). -/
theorem C3_prediction_filter (s : PillTag) :
    (∀ x, x ∈ predictFiltered s ↔
      (x ∈ s.autoComplete ∧
        jsStartsWith (jsToLower x) (jsToLower (jsTrim s.draft)) = true)) ∧
    ((s.autoComplete = [] ∨ s.draft = "") → (predictEdit s).prediction = none) := by
  constructor
  · intro x
    unfold predictFiltered
    rw [jsTrim_jsToLower]
    exact List.mem_filter
  · rintro (h | h)
    · simp [predictEdit, h]
    · have h0 : jsLen "" = 0 := rfl
      simp [predictEdit, h, h0]

/-- Claim C3, witness: the amended statement evaluated on a component with
no suggestions, and the candidate-set characterization instantiated on the
whitespace-draft component. -/
theorem C3_prediction_filter_witness :
    (predictEdit basePill).prediction = none ∧
    ("Apple" ∈ predictFiltered pillC3 ↔
      ("Apple" ∈ pillC3.autoComplete ∧
        jsStartsWith (jsToLower "Apple") (jsToLower (jsTrim pillC3.draft)) = true)) :=
  ⟨(C3_prediction_filter basePill).2 (Or.inl rfl),
   (C3_prediction_filter pillC3).1 "Apple"⟩

/-- Claim C4: for a non-empty candidate set the engine selects the
candidate that is least in code-point lexicographic order on the stored,
case-preserved strings, and the rendered ghost text is that match sliced
from the character length of the draft to its end. -/
theorem C4_prediction_tiebreak (s : PillTag) (h1 : predictFiltered s ≠ [])
    (h2 : s.draft ≠ "") :
    ∃ m, m ∈ predictFiltered s ∧ (∀ x ∈ predictFiltered s, strLeB m x = true) ∧
      (predictEdit s).prediction = some (jsSlice m (jsLen s.draft)) := by
  obtain ⟨hmem, hmin⟩ := sortJS_head_min (predictFiltered s) h1
  refine ⟨(sortJS (predictFiltered s)).headD "", hmem, hmin, ?_⟩
  have hac : s.autoComplete ≠ [] := by
    intro he
    apply h1
    unfold predictFiltered
    rw [he]
    rfl
  unfold predictEdit
  rw [if_pos ⟨List.length_pos.mpr hac, jsLen_pos h2⟩,
    if_pos (List.length_pos.mpr h1)]

/-- Claim C4, witness: on the documented example with suggestions apple,
Apricot and avocado and the draft a single letter a, the selected match is
Apricot (capital letters sort before lowercase in code-point order) and the
rendered ghost text is pricot. -/
theorem C4_prediction_tiebreak_witness :
    (predictEdit pillC4).prediction = some "pricot" ∧
    (∃ m, m ∈ predictFiltered pillC4 ∧
      (∀ x ∈ predictFiltered pillC4, strLeB m x = true) ∧
      (predictEdit pillC4).prediction = some (jsSlice m (jsLen pillC4.draft))) :=
  ⟨rfl, C4_prediction_tiebreak pillC4 (by decide) (by decide)⟩

/-- Claim C5, counterexample: with suggestions AppLE2 and Apple and the
draft Apple, the draft exactly equals a stored suggestion yet the rendered
ghost text is the non-empty string 2 (AppLE2 sorts first in code-point
order), and Tab merges it so the accept is not a no-op. -/
theorem C5_counterexample :
    pillC5.draft ∈ pillC5.autoComplete ∧
    (predictEdit pillC5).prediction = some "2" ∧
    (keydown (predictEdit pillC5) Key.tab).1.draft = "Apple2" ∧
    (keydown (predictEdit pillC5) Key.tab).2 = [] := by
  refine ⟨by decide, by decide, by decide, by decide⟩

/-- Claim C5, amended: Tab with a rendered prediction accepts it (the new
draft is the literal draft concatenated verbatim with the ghost text, the
session stays in the editing state, and nothing is emitted), while Tab with
no rendered prediction confirms exactly as Enter does; when the non-empty
trimmed draft exactly equals a stored suggestion, a prediction is still
active, so Tab takes the accept path, and the ghost is empty (a no-op
merge) when the selected sort-first match is the draft itself. -/
theorem C5_tab_disambiguation (s : PillTag) :
    (∀ g, s.prediction = some g →
      keydown s Key.tab = ({ s with draft := strCat s.draft g, prediction := none }, []) ∧
      (keydown s Key.tab).1.editing = s.editing) ∧
    (s.prediction = none → keydown s Key.tab = keydown s Key.enter) ∧
    (s.draft ∈ s.autoComplete → jsTrim s.draft = s.draft → s.draft ≠ "" →
      ∃ g, (predictEdit s).prediction = some g ∧
        ((sortJS (predictFiltered s)).headD "" = s.draft → g = "")) := by
  refine ⟨?_, ?_, ?_⟩
  · intro g hg
    have he : keydown s Key.tab =
        ({ s with draft := strCat s.draft g, prediction := none }, []) := by
      simp only [keydown, confirmPrediction, hg]
    exact ⟨he, by rw [he]⟩
  · intro hg
    simp only [keydown, hg]
  · intro hmem htrim hne
    have hlow : jsTrim (jsToLower s.draft) = jsToLower s.draft := by
      rw [jsTrim_jsToLower, htrim]
    have hfil : s.draft ∈ predictFiltered s := by
      unfold predictFiltered
      rw [List.mem_filter]
      refine ⟨hmem, ?_⟩
      unfold jsStartsWith
      rw [hlow]
      exact isPrefixOf_self _
    have hfne : predictFiltered s ≠ [] := List.ne_nil_of_mem hfil
    have hac : 0 < s.autoComplete.length := List.length_pos.mpr (List.ne_nil_of_mem hmem)
    refine ⟨jsSlice ((sortJS (predictFiltered s)).headD "") (jsLen s.draft), ?_, ?_⟩
    · unfold predictEdit
      rw [if_pos ⟨hac, jsLen_pos hne⟩, if_pos (List.length_pos.mpr hfne)]
    · intro hhead
      rw [hhead]
      apply str_data_inj
      show s.draft.data.drop s.draft.data.length = "".data
      rw [List.drop_length]

/-- Claim C5, witness: with the single suggestion Apple and the draft
Apple, Tab with no rendered prediction behaves as Enter, and after a
prediction pass the prediction is active with an empty ghost. -/
theorem C5_tab_disambiguation_witness :
    keydown pillC5b Key.tab = keydown pillC5b Key.enter ∧
    (∃ g, (predictEdit pillC5b).prediction = some g ∧
      ((sortJS (predictFiltered pillC5b)).headD "" = pillC5b.draft → g = "")) :=
  ⟨(C5_tab_disambiguation pillC5b).2.1 rfl,
   (C5_tab_disambiguation pillC5b).2.2 (by decide) (by decide) (by decide)⟩

/-- Claim C6: for every typed draft, entering edit mode and then aborting
restores the displayed value to the originalText snapshot taken at entry,
which equals the value displayed before the entry transition began. -/
theorem C6_abort_restores (s : PillTag) (tText : String) (h1 : s.editable = true)
    (h2 : s.prediction = none) (h3 : jsTrim s.draft = s.draft) :
    (abortEdit (inputEvent (openEdit s) tText)).draft = s.draft ∧
    (openEdit s).originalText = s.draft := by
  have htc : textContentOf s = s.draft := textContentOf_none h2
  have hOrig : (openEdit s).originalText = s.draft := by
    rw [openEdit_originalText s h1, htc, h3]
  refine ⟨?_, hOrig⟩
  rw [(abortEdit_fields _).1, inputEvent_originalText, hOrig]

/-- Claim C6, witness: entering edit on a component displaying Apple,
typing Zebra and aborting restores Apple. -/
theorem C6_abort_restores_witness :
    (abortEdit (inputEvent (openEdit pillC6) "Zebra")).draft = pillC6.draft ∧
    (openEdit pillC6).originalText = pillC6.draft :=
  C6_abort_restores pillC6 "Zebra" rfl rfl (by decide)

/-- Claim C7, counterexample: aborting with the draft Man while the ghost
text go is rendered registers the merged text Mango, not the trimmed draft
Man, so the value the claim says is registered does not appear in the
suggestion set. -/
theorem C7_counterexample :
    pillC7.draft = "Man" ∧ jsTrim pillC7.draft ≠ "" ∧
    titleCase (jsTrim pillC7.draft) = "Man" ∧
    (abortEdit pillC7).autoComplete = ["Mango"] ∧
    "Man" ∉ (abortEdit pillC7).autoComplete ∧
    (abortEdit pillC7).draft = pillC7.originalText := by
  refine ⟨rfl, by decide, by decide, by decide, by decide, by decide⟩

/-- Claim C7, amended: aborting registers the title-cased trimmed rendered
text (the draft together with any rendered ghost suffix) into the
suggestion set when it is non-empty, and registers nothing when it is
empty; in particular, with no prediction rendered, a non-empty trimmed
draft is registered title-cased even though the displayed value reverts to
originalText. -/
theorem C7_abort_registration (s : PillTag) :
    (s.prediction = none → jsTrim s.draft ≠ "" →
      titleCase (jsTrim s.draft) ∈ (abortEdit s).autoComplete) ∧
    (jsTrim (textContentOf s) ≠ "" →
      titleCase (jsTrim (textContentOf s)) ∈ (abortEdit s).autoComplete) ∧
    (jsTrim (textContentOf s) = "" → (abortEdit s).autoComplete = s.autoComplete) ∧
    (abortEdit s).draft = s.originalText := by
  have main : ∀ _ : jsTrim (textContentOf s) ≠ "",
      titleCase (jsTrim (textContentOf s)) ∈ (abortEdit s).autoComplete := by
    intro h
    simp only [abortEdit]
    rw [if_pos h]
    have harg : textContentOf { s with draft := jsTrim (textContentOf s), prediction := none } =
        jsTrim (textContentOf s) := textContentOf_none rfl
    rw [harg, jsTrim_idem]
    exact addAutoComplete_mem _ _
  refine ⟨?_, main, ?_, (abortEdit_fields s).1⟩
  · intro hp hne
    have htc : textContentOf s = s.draft := textContentOf_none hp
    have h' : jsTrim (textContentOf s) ≠ "" := by rw [htc]; exact hne
    have hm := main h'
    rw [htc] at hm
    exact hm
  · intro h
    simp only [abortEdit]
    rw [if_neg (by simp [h])]

/-- Claim C7, witness: typing Mango and aborting registers Mango even
though the displayed value reverts, and Mango then serves a subsequent
prediction pass for the draft Man. -/
theorem C7_abort_registration_witness :
    titleCase (jsTrim pillC7b.draft) ∈ (abortEdit pillC7b).autoComplete ∧
    (abortEdit pillC7b).draft = pillC7b.originalText ∧
    (predictEdit { abortEdit pillC7b with draft := "Man", editing := true }).prediction =
      some "go" :=
  ⟨(C7_abort_registration pillC7b).1 rfl (by decide),
   (C7_abort_registration pillC7b).2.2.2,
   by decide⟩

/-- Claim C8, counterexample: with an edit session already active (editing
true) and the draft Banana differing from the originalText snapshot Apple,
invoking the entry transition is not a no-op: it re-snapshots originalText
from the current draft. -/
theorem C8_counterexample :
    pillC8.editing = true ∧ pillC8.editable = true ∧
    pillC8.originalText = "Apple" ∧ (openEdit pillC8).originalText = "Banana" := by
  refine ⟨rfl, rfl, rfl, by decide⟩

/-- Claim C8, amended: the entry transition (programmatic edit trigger or
focus) is a no-op, leaving every piece of component state unchanged, when
editing is disabled; when a session already exists the entry logic runs
again and re-snapshots originalText from the current text. -/
theorem C8_entry_noop_disabled (s : PillTag) (h : s.editable = false) :
    openEdit s = s ∧ edit s = s := by
  have ho : openEdit s = s := by
    unfold openEdit
    rw [if_pos h]
  exact ⟨ho, ho⟩

/-- Claim C8, witness: the entry transition on a concrete non-editable
component changes nothing. -/
theorem C8_entry_noop_disabled_witness :
    openEdit pillC8b = pillC8b ∧ edit pillC8b = pillC8b :=
  C8_entry_noop_disabled pillC8b rfl

/-- Claim C9: assigning a non-array to the suggestion list or a non-string
to the value logs a diagnostic message, leaves the prior state entirely
unchanged, and (the setters being total functions) throws nothing. -/
theorem C9_invalid_config (s : PillTag) (v w : ConfigVal)
    (h1 : isArrVal v = false) (h2 : isStrVal w = false) :
    setAutoComplete s v = (s, some "auto-complete must be an array") ∧
    setTextContent s w = (s, some "textContent must be a string") := by
  constructor
  · cases v with
    | carr l => simp [isArrVal] at h1
    | cstr t => rfl
    | cnum n => rfl
    | cbool b => rfl
    | cnull => rfl
  · cases w with
    | cstr t => simp [isStrVal] at h2
    | carr l => rfl
    | cnum n => rfl
    | cbool b => rfl
    | cnull => rfl

/-- Claim C9, witness: a string assigned to the suggestion list and a
number assigned to the value are both rejected with the logged message and
the state retained. -/
theorem C9_invalid_config_witness :
    setAutoComplete pillC9 (ConfigVal.cstr "x") =
      (pillC9, some "auto-complete must be an array") ∧
    setTextContent pillC9 (ConfigVal.cnum 3) =
      (pillC9, some "textContent must be a string") :=
  C9_invalid_config pillC9 (ConfigVal.cstr "x") (ConfigVal.cnum 3) rfl rfl

/-- Claim C10: during an active edit session the textContent getter returns
the originalText snapshot (the trimmed pre-session value), never the live
draft, regardless of what has been typed. -/
theorem C10_getter_snapshot (s : PillTag) (tText : String) (h1 : s.editable = true)
    (h2 : s.prediction = none) :
    textContentGet (inputEvent (openEdit s) tText) = jsTrim s.draft ∧
    (inputEvent (openEdit s) tText).draft = tText ∧
    (inputEvent (openEdit s) tText).editing = true := by
  refine ⟨?_, inputEvent_draft _ _, ?_⟩
  · show (inputEvent (openEdit s) tText).originalText = jsTrim s.draft
    rw [inputEvent_originalText, openEdit_originalText s h1, textContentOf_none h2]
  · rw [inputEvent_editing, openEdit_editing s h1]

/-- Claim C10, witness: with the pre-session value Apple and the typed text
Zebra, the getter still returns Apple while the live draft is Zebra. -/
theorem C10_getter_snapshot_witness :
    textContentGet (inputEvent (openEdit pillC10) "Zebra") = jsTrim pillC10.draft ∧
    (inputEvent (openEdit pillC10) "Zebra").draft = "Zebra" ∧
    (inputEvent (openEdit pillC10) "Zebra").editing = true :=
  C10_getter_snapshot pillC10 "Zebra" rfl rfl
